import Mathlib

/-!
Shallow embedding of `generate_report_fixed.py`, the single source file of the
estonian-school-analysis repository.

Modelling choices:
* Python strings are modelled as `List Char` (as `String` at the interfaces),
  Python floats as exact rationals `ℚ`, Python ints as `ℤ`, `None` and a float
  `nan` (what `pd.isna` detects) by dedicated constructors of `PyVal`, and an
  absent value by `Option`.
* The Unicode library primitives the script calls (`unicodedata.normalize` in
  its NFC and NFKC forms, `str.lower`, and the whitespace set used by
  `str.strip`) are parameters of the embedding, collected in `UnicodeModel`.
  The facts about them that the script relies on appear as explicit hypotheses
  of the theorems, and concrete instantiations (`estModel` for the ASCII
  fragment that the data and the classifier sets exercise, and the trivial
  `U0`) are used to discharge them on concrete inputs.
* Python truthiness tests (`if x and y`, `x or 0`, `x if x else -1`) are
  translated literally: an `Option` value is truthy exactly when it is
  present and nonzero (for numbers) or nonempty (for strings).
-/

namespace Report

/-- Python runtime values that can reach the text and number helpers of the
script: `None`, a float `nan`, strings, ints and floats. -/
inductive PyVal where
  | pyNone : PyVal
  | nan : PyVal
  | str : String → PyVal
  | int : ℤ → PyVal
  | float : ℚ → PyVal
deriving DecidableEq

/-- The Unicode primitives used by the script, kept abstract: `nfkc` and `nfc`
model the two forms of `unicodedata.normalize`, `lower` models `str.lower`,
and `isSpace` is the whitespace test of `str.strip`. -/
structure UnicodeModel where
  nfkc : List Char → List Char
  nfc : List Char → List Char
  lower : List Char → List Char
  isSpace : Char → Bool

/-- Python `str.strip()`: drop leading and trailing whitespace. -/
def stripList (isSp : Char → Bool) (cs : List Char) : List Char :=
  ((cs.dropWhile isSp).reverse.dropWhile isSp).reverse

/-- `normalize` (source lines 58-61): NFKC-normalize, then strip, then
lowercase. -/
def normalize (U : UnicodeModel) (cs : List Char) : List Char :=
  U.lower (stripList U.isSpace (U.nfkc cs))

/-- The replace call of `normalize_school_name`: remove every soft hyphen
(U+00AD). -/
def removeSoftHyphen (cs : List Char) : List Char :=
  cs.filter (fun c => c != '\u00AD')

/-- `normalize_school_name` (source lines 9-14): `pd.isna` and non-`str`
inputs give the empty string; a string is stripped, NFC-normalized, and its
soft hyphens removed.  (No lowercasing happens here.) -/
def normalize_school_name (U : UnicodeModel) (v : PyVal) : String :=
  match v with
  | PyVal.str s => String.mk (removeSoftHyphen (U.nfc (stripList U.isSpace s.data)))
  | _ => ""

/-- Does `sub` match at the head of the second list? (Helper for Python's
substring operator `in`.) -/
def matchHere : List Char → List Char → Bool
  | [], _ => true
  | _ :: _, [] => false
  | a :: as, b :: bs => a == b && matchHere as bs

/-- Python's `sub in s` for strings: `sub` occurs contiguously in `s`. -/
def substr (sub : List Char) : List Char → Bool
  | [] => matchHere sub []
  | c :: rest => matchHere sub (c :: rest) || substr sub rest

/-- `EXTRA_TALLINN_SCHOOLS` (source lines 64-74). -/
def EXTRA_TALLINN_SCHOOLS : List String :=
  ["gustav adolfi gümnaasium",
   "jakob westholmi gümnaasium",
   "vanalinna hariduskolleegium",
   "kadrioru saksa gümnaasium",
   "rocca al mare kool",
   "pelgulinna gümnaasium",
   "pirita majandusgümnaasium",
   "ebs gümnaasium",
   "audentese spordigümnaasium"]

/-- `PRIVATE_SCHOOLS` (source lines 77-81). -/
def PRIVATE_SCHOOLS : List String :=
  ["ebs gümnaasium",
   "rocca al mare kool",
   "audentese spordigümnaasium"]

/-- `is_tallinn_school` (source lines 83-104): an empty name is rejected;
otherwise the normalized name is tested for the substring `tallinn` and then
against every member of `EXTRA_TALLINN_SCHOOLS`. -/
def is_tallinn_school (U : UnicodeModel) (school_name : String) : Bool :=
  if school_name = "" then false
  else if substr ("tallinn".data) (normalize U school_name.data) then true
  else EXTRA_TALLINN_SCHOOLS.any (fun exc => substr exc.data (normalize U school_name.data))

/-- `is_private_school` (source lines 106-119): an empty name is rejected;
otherwise the normalized name is tested against every member of
`PRIVATE_SCHOOLS`. -/
def is_private_school (U : UnicodeModel) (school_name : String) : Bool :=
  if school_name = "" then false
  else PRIVATE_SCHOOLS.any (fun p => substr p.data (normalize U school_name.data))

/-- ASCII lowercasing: the fragment of Python `str.lower` exercised by the
examples in the specification. Characters outside A-Z are left unchanged. -/
def asciiLower : Char → Char
  | 'A' => 'a' | 'B' => 'b' | 'C' => 'c' | 'D' => 'd' | 'E' => 'e'
  | 'F' => 'f' | 'G' => 'g' | 'H' => 'h' | 'I' => 'i' | 'J' => 'j'
  | 'K' => 'k' | 'L' => 'l' | 'M' => 'm' | 'N' => 'n' | 'O' => 'o'
  | 'P' => 'p' | 'Q' => 'q' | 'R' => 'r' | 'S' => 's' | 'T' => 't'
  | 'U' => 'u' | 'V' => 'v' | 'W' => 'w' | 'X' => 'x' | 'Y' => 'y'
  | 'Z' => 'z' | c => c

/-- ASCII whitespace, the fragment of the `str.strip` whitespace set exercised
by the data. -/
def asciiSpace (c : Char) : Bool :=
  c == ' ' || c == '\t' || c == '\n' || c == '\r'

/-- Concrete Unicode model for the ASCII fragment relevant to the data: on it
both normalization forms are the identity (every ASCII string is normalized)
and lowercasing is `asciiLower` pointwise. -/
def estModel : UnicodeModel :=
  ⟨id, id, List.map asciiLower, asciiSpace⟩

/-- Trivial Unicode model (case-less alphabet, no whitespace); used to exhibit
that the Unicode hypotheses of the theorems are satisfiable. -/
def U0 : UnicodeModel :=
  ⟨id, id, id, fun _ => false⟩

/-- Decimal digit characters for the digit values 0-9. -/
def digitChar : ℕ → Char
  | 0 => '0' | 1 => '1' | 2 => '2' | 3 => '3' | 4 => '4'
  | 5 => '5' | 6 => '6' | 7 => '7' | 8 => '8' | _ => '9'

/-- Numeric value of a digit character. -/
def digitVal (c : Char) : ℕ :=
  c.toNat - 48

/-- Base-10 digits of `n`, least significant first, computed with explicit
fuel so that it reduces in the kernel; `digitsLE_eq_digits` identifies it
with `Nat.digits 10` when the fuel suffices. -/
def digitsLE : ℕ → ℕ → List ℕ
  | 0, _ => []
  | fuel + 1, n => if n = 0 then [] else n % 10 :: digitsLE fuel (n / 10)

/-- Decimal rendering of a natural number, most significant digit first
(Python `str` of a nonnegative int, and the integer part of an `f`-format). -/
def natToChars (n : ℕ) : List Char :=
  if n = 0 then ['0'] else ((digitsLE n n).map digitChar).reverse

/-- Value of a most-significant-first digit string. -/
def digitsVal (cs : List Char) : ℕ :=
  cs.foldl (fun a c => a * 10 + digitVal c) 0

/-- Every character is a decimal digit. -/
def allDigits (cs : List Char) : Bool :=
  cs.all Char.isDigit

/-- Split a character list at its first `'.'`: the part before it, and
(when a dot exists) the part after it. -/
def breakDot : List Char → List Char × Option (List Char)
  | [] => ([], none)
  | c :: cs =>
    if c = '.' then ([], some cs)
    else
      let p := breakDot cs
      (c :: p.1, p.2)

/-- Value of a split decimal literal: integer part plus fractional part when
a dot was found, integer part alone otherwise, `none` on any malformed part
(no digits at all, or a non-digit character). -/
def dotSplitCase : List Char × Option (List Char) → Option ℚ
  | (ip, none) =>
    if ip ≠ [] ∧ allDigits ip = true then some ((digitsVal ip : ℚ)) else none
  | (ip, some fp) =>
    if (ip ≠ [] ∨ fp ≠ []) ∧ allDigits ip = true ∧ allDigits fp = true then
      some ((digitsVal ip : ℚ) + (digitsVal fp : ℚ) / (10 : ℚ) ^ fp.length)
    else none

/-- Python `float(s)` on an unsigned decimal literal: digits with at most one
point and at least one digit.  (The model covers the plain decimal fragment of
`float`; exponents, `inf`, `nan`, underscores and surrounding whitespace do
not occur in the data or in the claims.) -/
def floatParseUnsigned (cs : List Char) : Option ℚ :=
  dotSplitCase (breakDot cs)

/-- Python `float(s)` on a plain decimal literal with an optional sign. -/
def floatParse (cs : List Char) : Option ℚ :=
  match cs with
  | [] => none
  | c :: rest =>
    if c = '-' then (floatParseUnsigned rest).map (fun q => -q)
    else if c = '+' then floatParseUnsigned rest
    else floatParseUnsigned (c :: rest)

/-- `str(value).replace(',', '.')`: replace every comma by a dot. -/
def commaToDot (cs : List Char) : List Char :=
  cs.map (fun c => if c = ',' then '.' else c)

/-- `parse_decimal_comma` (source lines 16-25): `pd.isna`-values, the empty
string and the em-dash placeholder give `None`; ints and floats are passed
through; any other string is parsed after replacing commas by dots, a parse
failure being mapped to `None` by the `try`/`except`. -/
def parse_decimal_comma (v : PyVal) : Option ℚ :=
  match v with
  | PyVal.pyNone => none
  | PyVal.nan => none
  | PyVal.int n => some ((n : ℚ))
  | PyVal.float q => some q
  | PyVal.str s =>
    if s = "" ∨ s = "—" then none
    else floatParse (commaToDot s.data)

/-- Round a rational to the nearest integer, ties to the even integer (the
rounding used by Python's fixed-point formatting, applied here to the exact
value). -/
def roundHalfEven (x : ℚ) : ℤ :=
  if x - (⌊x⌋ : ℚ) < 1 / 2 then ⌊x⌋
  else if 1 / 2 < x - (⌊x⌋ : ℚ) then ⌊x⌋ + 1
  else if ⌊x⌋ % 2 = 0 then ⌊x⌋ else ⌊x⌋ + 1

/-- A rational rounded to one decimal place. -/
def round1 (q : ℚ) : ℚ :=
  ((roundHalfEven (10 * q) : ℤ) : ℚ) / 10

/-- `format_score` (source lines 27-31): `None` becomes the placeholder glyph
`—`; a present score is rendered with exactly one fractional digit
(`f-string` `:.1f` on the exact value) and the decimal point replaced by a
comma. -/
def format_score : Option ℚ → String
  | none => "—"
  | some q =>
    String.mk
      ((if roundHalfEven (10 * q) < 0 then ['-'] else []) ++
        natToChars ((roundHalfEven (10 * q)).natAbs / 10) ++
        ',' :: [digitChar ((roundHalfEven (10 * q)).natAbs % 10)])

/-- One consolidated school record (the fields of `school_record`, source
lines 171-190, that the claims are about; places are kept in their parsed
`parse_place` form, an absent or unparseable place being `none`). -/
structure SchoolRecord where
  name : String
  kokku2018 : Option ℚ
  kokku2023 : Option ℚ
  kokku2024 : Option ℚ
  place2018 : Option ℤ
  place2023 : Option ℤ
  place2024 : Option ℤ
deriving DecidableEq

/-- `trend_1yr` (source lines 200-203): `Kokku_2024 - Kokku_2023` under the
Python truthiness guard `if school['Kokku_2023'] and school['Kokku_2024']`,
so the difference is produced exactly when both scores are present and
nonzero. -/
def trend_1yr (k23 k24 : Option ℚ) : Option ℚ :=
  match k23, k24 with
  | some a, some b => if a ≠ 0 ∧ b ≠ 0 then some (b - a) else none
  | _, _ => none

/-- `trend_6yr` (source lines 205-208): `Kokku_2024 - Kokku_2018` under the
same truthiness guard. -/
def trend_6yr (k18 k24 : Option ℚ) : Option ℚ :=
  match k18, k24 with
  | some a, some b => if a ≠ 0 ∧ b ≠ 0 then some (b - a) else none
  | _, _ => none

/-- `place_change_6yr` (source lines 224-227): `place_2018 - place_2024`
under the truthiness guard `if place_2018 and place_2024`. -/
def place_change_6yr (p18 p24 : Option ℤ) : Option ℤ :=
  match p18, p24 with
  | some a, some b => if a ≠ 0 ∧ b ≠ 0 then some (a - b) else none
  | _, _ => none

/-- `place_change_1yr` (source lines 229-232): `place_2023 - place_2024`
under the truthiness guard `if place_2023 and place_2024`. -/
def place_change_1yr (p23 p24 : Option ℤ) : Option ℤ :=
  match p23, p24 with
  | some a, some b => if a ≠ 0 ∧ b ≠ 0 then some (a - b) else none
  | _, _ => none

/-- The category chain of source lines 234-245, as a function of the 2024
total score. -/
def categoryOfScore (k : Option ℚ) : String :=
  match k with
  | none => "no-data"
  | some q =>
    if 250 ≤ q then "excellent"
    else if 200 ≤ q then "very-good"
    else if 150 ≤ q then "good"
    else "average"

/-- `school['category']`: derived from the record's 2024 total score. -/
def category (r : SchoolRecord) : String :=
  categoryOfScore r.kokku2024

/-- Python `x or 0` on an optional integer: `None` and `0` give `0`, any
other present value gives itself. -/
def orZero (x : Option ℤ) : ℤ :=
  match x with
  | some n => if n ≠ 0 then n else 0
  | none => 0

/-- `trend_cat` (source lines 250-260): the 1-year place change (with `or 0`)
compared strictly against 5 and -5. -/
def trend_cat (pc : Option ℤ) : String :=
  if 5 < orZero pc then "improving"
  else if orZero pc < -5 then "declining"
  else "stable"

/-- The sort key of source line 195: `x['Kokku_2024'] if x['Kokku_2024'] else
-1`, so an absent or zero score becomes the sentinel `-1`. -/
def sortKey (k : Option ℚ) : ℚ :=
  match k with
  | some q => if q ≠ 0 then q else -1
  | none => -1

/-- The ordering of `schools_data.sort(key=..., reverse=True)`: descending by
`sortKey`. -/
def byKeyDesc (a b : SchoolRecord) : Prop :=
  sortKey b.kokku2024 ≤ sortKey a.kokku2024

instance : DecidableRel byKeyDesc := fun a b =>
  inferInstanceAs (Decidable (sortKey b.kokku2024 ≤ sortKey a.kokku2024))

instance : IsTotal SchoolRecord byKeyDesc :=
  ⟨fun a b => le_total (sortKey b.kokku2024) (sortKey a.kokku2024)⟩

instance : IsTrans SchoolRecord byKeyDesc :=
  ⟨fun _ _ _ h1 h2 => le_trans h2 h1⟩

/-- `schools_data.sort(key=..., reverse=True)` (source lines 194-195): a
stable descending sort by `sortKey` (Python's sort is stable and so is
insertion sort with this total preorder). -/
def sortSchools (l : List SchoolRecord) : List SchoolRecord :=
  List.insertionSort byKeyDesc l

/-- `highly_competitive` (source lines 672-673). -/
def highly_competitive : List String :=
  ["Tallinna Reaalkool", "Tallinna Inglise Kolledž", "Gustav Adolfi Gümnaasium",
   "Tallinna Prantsuse Lütseum", "Tallinna 21. Kool", "Kadrioru Saksa Gümnaasium"]

/-- `is_competitive` in the table-row loop (source line 676): a case-sensitive
substring test of the stored school name against `highly_competitive`. -/
def is_competitive (name : String) : Bool :=
  highly_competitive.any (fun comp => substr comp.data name.data)

/-- Python `.title().replace('-', ' ')` evaluated on the five category values
the pipeline produces (source line 691). -/
def categoryLabel : String → String
  | "excellent" => "Excellent"
  | "very-good" => "Very Good"
  | "good" => "Good"
  | "average" => "Average"
  | "no-data" => "No Data"
  | s => s

/-- The branch structure of the table-row loop (source lines 675-691): the
private check comes first, then the competitive check; the result is the row
class, the displayed school name, and the performance label. -/
def rowRender (U : UnicodeModel) (r : SchoolRecord) : String × String × String :=
  if is_private_school U r.name then
    (" class=\"private-school\"", r.name ++ " 💼", "Private School")
  else if is_competitive r.name then
    (" class=\"highly-competitive\"", r.name ++ " ⭐", "Highly Competitive")
  else
    ("", r.name, categoryLabel (category r))

/-- A record with only a name and a 2024 total score (used for concrete
instances). -/
def mkRec (nm : String) (k24 : Option ℚ) : SchoolRecord :=
  ⟨nm, none, none, k24, none, none, none⟩

/-- Concrete record with an absent 2024 score. -/
def demoAbsent : SchoolRecord := mkRec "absent" none

/-- Concrete record with a positive 2024 score. -/
def demoPos : SchoolRecord := mkRec "pos" (some 200)

/-- Concrete record with a present zero 2024 score. -/
def demoZero : SchoolRecord := mkRec "zero" (some 0)

/-! ### Helper lemmas: digit strings and the decimal parser -/

theorem digitsLE_eq_digits : ∀ (fuel n : ℕ), n ≤ fuel → digitsLE fuel n = Nat.digits 10 n := by
  intro fuel
  induction fuel with
  | zero =>
    intro n hn
    have : n = 0 := Nat.le_zero.mp hn
    simp [digitsLE, this]
  | succ f ih =>
    intro n hn
    by_cases h0 : n = 0
    · simp [digitsLE, h0]
    · have hpos : 0 < n := Nat.pos_of_ne_zero h0
      have hdiv : n / 10 ≤ f := by
        have := Nat.div_lt_self hpos (by norm_num : 1 < 10)
        omega
      rw [Nat.digits_def' (by norm_num : 1 < 10) hpos]
      simp [digitsLE, h0, ih (n / 10) hdiv]

theorem digitVal_digitChar {d : ℕ} (hd : d < 10) : digitVal (digitChar d) = d := by
  interval_cases d <;> rfl

theorem isDigit_digitChar {d : ℕ} (hd : d < 10) : (digitChar d).isDigit = true := by
  interval_cases d <;> rfl

theorem isDigit_ne_comma {c : Char} (h : c.isDigit = true) : c ≠ ',' := by
  intro hc
  rw [hc] at h
  exact absurd h (by decide)

theorem isDigit_ne_dot {c : Char} (h : c.isDigit = true) : c ≠ '.' := by
  intro hc
  rw [hc] at h
  exact absurd h (by decide)

theorem isDigit_ne_minus {c : Char} (h : c.isDigit = true) : c ≠ '-' := by
  intro hc
  rw [hc] at h
  exact absurd h (by decide)

theorem isDigit_ne_plus {c : Char} (h : c.isDigit = true) : c ≠ '+' := by
  intro hc
  rw [hc] at h
  exact absurd h (by decide)

theorem foldl_digitChars :
    ∀ (L : List ℕ), (∀ d ∈ L, d < 10) → ∀ (a : ℕ),
      ((L.map digitChar).reverse).foldl (fun x c => x * 10 + digitVal c) a
        = a * 10 ^ L.length + Nat.ofDigits 10 L := by
  intro L
  induction L with
  | nil => intro _ a; simp [Nat.ofDigits_nil]
  | cons d ds ih =>
    intro hL a
    have hd : d < 10 := hL d (List.mem_cons_self d ds)
    have hds : ∀ x ∈ ds, x < 10 := fun x hx => hL x (List.mem_cons_of_mem d hx)
    simp only [List.map_cons, List.reverse_cons, List.foldl_append, List.foldl_cons,
      List.foldl_nil, ih hds a, digitVal_digitChar hd, Nat.ofDigits_cons, List.length_cons]
    ring

theorem digitsVal_natToChars (n : ℕ) : digitsVal (natToChars n) = n := by
  unfold natToChars
  by_cases h0 : n = 0
  · simp [h0, digitsVal, digitVal]
  · rw [if_neg h0, digitsLE_eq_digits n n le_rfl]
    unfold digitsVal
    rw [foldl_digitChars (Nat.digits 10 n)
      (fun d hd => Nat.digits_lt_base (by norm_num) hd) 0]
    simp [Nat.ofDigits_digits]

theorem allDigits_natToChars (n : ℕ) : allDigits (natToChars n) = true := by
  unfold natToChars allDigits
  by_cases h0 : n = 0
  · simp [h0]
  · rw [if_neg h0, digitsLE_eq_digits n n le_rfl, List.all_eq_true]
    intro c hc
    rw [List.mem_reverse, List.mem_map] at hc
    obtain ⟨d, hd, rfl⟩ := hc
    exact isDigit_digitChar (Nat.digits_lt_base (by norm_num) hd)

theorem natToChars_ne_nil (n : ℕ) : natToChars n ≠ [] := by
  unfold natToChars
  by_cases h0 : n = 0
  · simp [h0]
  · rw [if_neg h0, digitsLE_eq_digits n n le_rfl]
    simp [Nat.digits_ne_nil_iff_ne_zero.mpr h0]

theorem commaToDot_of_allDigits : ∀ {cs : List Char}, allDigits cs = true → commaToDot cs = cs := by
  intro cs
  induction cs with
  | nil => intro _; rfl
  | cons c rest ih =>
    intro h
    rw [allDigits, List.all_cons, Bool.and_eq_true] at h
    unfold commaToDot at ih ⊢
    simp only [List.map_cons, ih h.2, if_neg (isDigit_ne_comma h.1)]

theorem allDigits_ne_dot {cs : List Char} (h : allDigits cs = true) :
    ∀ c ∈ cs, c ≠ '.' := by
  intro c hc
  rw [allDigits, List.all_eq_true] at h
  exact isDigit_ne_dot (h c hc)

theorem breakDot_append :
    ∀ (ip fp : List Char), (∀ c ∈ ip, c ≠ '.') →
      breakDot (ip ++ '.' :: fp) = (ip, some fp) := by
  intro ip
  induction ip with
  | nil => intro fp _; simp [breakDot]
  | cons c rest ih =>
    intro fp h
    have hc : c ≠ '.' := h c (List.mem_cons_self c rest)
    have hrest : ∀ x ∈ rest, x ≠ '.' := fun x hx => h x (List.mem_cons_of_mem c hx)
    simp [breakDot, hc, ih fp hrest]

theorem digitsVal_single {d : ℕ} (hd : d < 10) : digitsVal [digitChar d] = d := by
  unfold digitsVal
  simp [digitVal_digitChar hd]

theorem floatParseUnsigned_pair (a d : ℕ) (hd : d < 10) :
    floatParseUnsigned (natToChars a ++ '.' :: [digitChar d])
      = some ((a : ℚ) + (d : ℚ) / 10) := by
  unfold floatParseUnsigned
  rw [breakDot_append _ _ (allDigits_ne_dot (allDigits_natToChars a))]
  show (if (natToChars a ≠ [] ∨ [digitChar d] ≠ []) ∧ allDigits (natToChars a) = true ∧
      allDigits [digitChar d] = true then
      some ((digitsVal (natToChars a) : ℚ) +
        (digitsVal [digitChar d] : ℚ) / (10 : ℚ) ^ ([digitChar d].length)) else none)
    = some ((a : ℚ) + (d : ℚ) / 10)
  rw [if_pos ⟨Or.inl (natToChars_ne_nil a), allDigits_natToChars a,
    by simp [allDigits, isDigit_digitChar hd]⟩]
  rw [digitsVal_natToChars, digitsVal_single hd]
  norm_num

theorem floatParse_pair (a d : ℕ) (hd : d < 10) :
    floatParse (natToChars a ++ '.' :: [digitChar d])
      = some ((a : ℚ) + (d : ℚ) / 10) := by
  cases hnc : natToChars a with
  | nil => exact absurd hnc (natToChars_ne_nil a)
  | cons c cs =>
    have hdig : c.isDigit = true := by
      have := allDigits_natToChars a
      rw [hnc, allDigits, List.all_cons, Bool.and_eq_true] at this
      exact this.1
    rw [List.cons_append]
    show floatParse (c :: (cs ++ '.' :: [digitChar d])) = _
    have hstep : floatParse (c :: (cs ++ '.' :: [digitChar d]))
        = if c = '-' then (floatParseUnsigned (cs ++ '.' :: [digitChar d])).map (fun q => -q)
          else if c = '+' then floatParseUnsigned (cs ++ '.' :: [digitChar d])
          else floatParseUnsigned (c :: (cs ++ '.' :: [digitChar d])) := rfl
    rw [hstep, if_neg (isDigit_ne_minus hdig), if_neg (isDigit_ne_plus hdig),
      ← List.cons_append, ← hnc]
    exact floatParseUnsigned_pair a d hd

/-! ### Helper lemmas: rounding and `format_score` -/

theorem abs_roundHalfEven_sub (x : ℚ) : |(roundHalfEven x : ℚ) - x| ≤ 1 / 2 := by
  have h1 : ((⌊x⌋ : ℤ) : ℚ) ≤ x := Int.floor_le x
  have h2 : x < ((⌊x⌋ : ℤ) : ℚ) + 1 := Int.lt_floor_add_one x
  unfold roundHalfEven
  split
  · rename_i h
    rw [abs_le]
    constructor <;> linarith
  · split
    · rename_i h h'
      rw [abs_le]
      push_cast
      constructor <;> linarith
    · split <;>
        · rename_i h h' _
          rw [abs_le]
          push_cast
          constructor <;> linarith

theorem round1_close (q : ℚ) : |round1 q - q| ≤ 1 / 20 := by
  have h := abs_roundHalfEven_sub (10 * q)
  have heq : round1 q - q = ((roundHalfEven (10 * q) : ℚ) - 10 * q) / 10 := by
    unfold round1; ring
  rw [heq, abs_div, abs_of_pos (show (0 : ℚ) < 10 by norm_num)]
  linarith

theorem commaToDot_append (xs ys : List Char) :
    commaToDot (xs ++ ys) = commaToDot xs ++ commaToDot ys :=
  List.map_append _ xs ys

theorem format_some_data (q : ℚ) :
    (format_score (some q)).data
      = (if roundHalfEven (10 * q) < 0 then ['-'] else []) ++
          natToChars ((roundHalfEven (10 * q)).natAbs / 10) ++
          ',' :: [digitChar ((roundHalfEven (10 * q)).natAbs % 10)] := rfl

theorem div_add_mod_q (m : ℕ) :
    ((m / 10 : ℕ) : ℚ) + ((m % 10 : ℕ) : ℚ) / 10 = (m : ℚ) / 10 := by
  have h : (10 : ℚ) * ((m / 10 : ℕ) : ℚ) + ((m % 10 : ℕ) : ℚ) = (m : ℚ) := by
    exact_mod_cast congrArg (Nat.cast : ℕ → ℚ) (Nat.div_add_mod m 10)
  linarith

theorem floatParse_signed_tenths (n : ℤ) :
    floatParse (commaToDot ((if n < 0 then ['-'] else []) ++
        natToChars (n.natAbs / 10) ++ ',' :: [digitChar (n.natAbs % 10)]))
      = some ((n : ℚ) / 10) := by
  have hmod : n.natAbs % 10 < 10 := Nat.mod_lt _ (by norm_num)
  have hcomma : commaToDot (',' :: [digitChar (n.natAbs % 10)])
      = '.' :: [digitChar (n.natAbs % 10)] := by
    show [if ',' = ',' then '.' else ',',
        if digitChar (n.natAbs % 10) = ',' then '.' else digitChar (n.natAbs % 10)] = _
    rw [if_pos rfl, if_neg (isDigit_ne_comma (isDigit_digitChar hmod))]
  rcases le_or_lt 0 n with hpos | hneg
  · rw [if_neg (not_lt.mpr hpos), List.nil_append, commaToDot_append,
      commaToDot_of_allDigits (allDigits_natToChars _), hcomma,
      floatParse_pair _ _ hmod, div_add_mod_q, Int.cast_natAbs,
      abs_of_nonneg hpos]
  · rw [if_pos hneg, commaToDot_append, commaToDot_append,
      show commaToDot ['-'] = ['-'] from rfl,
      commaToDot_of_allDigits (allDigits_natToChars _), hcomma, List.append_assoc]
    have hstep : floatParse (['-'] ++ (natToChars (n.natAbs / 10) ++
        '.' :: [digitChar (n.natAbs % 10)]))
          = (floatParseUnsigned (natToChars (n.natAbs / 10) ++
            '.' :: [digitChar (n.natAbs % 10)])).map (fun x => -x) := rfl
    rw [hstep, floatParseUnsigned_pair _ _ hmod, div_add_mod_q]
    show some (-((n.natAbs : ℚ) / 10)) = some ((n : ℚ) / 10)
    rw [Int.cast_natAbs, abs_of_nonpos hneg.le]
    push_cast
    ring_nf

theorem floatParse_format (q : ℚ) :
    floatParse (commaToDot (format_score (some q)).data) = some (round1 q) := by
  rw [format_some_data]
  exact floatParse_signed_tenths (roundHalfEven (10 * q))

theorem comma_mem_format (q : ℚ) : ',' ∈ (format_score (some q)).data := by
  rw [format_some_data]
  exact List.mem_append_right _ (List.mem_cons_self _ _)

theorem format_some_ne_empty (q : ℚ) : format_score (some q) ≠ "" := by
  intro h
  have := comma_mem_format q
  rw [h] at this
  exact absurd this (by decide)

theorem format_some_ne_dash (q : ℚ) : format_score (some q) ≠ "—" := by
  intro h
  have := comma_mem_format q
  rw [h] at this
  exact absurd this (by decide)

theorem parse_format (q : ℚ) :
    parse_decimal_comma (PyVal.str (format_score (some q))) = some (round1 q) := by
  show (if format_score (some q) = "" ∨ format_score (some q) = "—" then none
    else floatParse (commaToDot (format_score (some q)).data)) = some (round1 q)
  rw [if_neg (by
    intro h
    rcases h with h | h
    · exact format_some_ne_empty q h
    · exact format_some_ne_dash q h)]
  exact floatParse_format q

theorem categoryOfScore_some (q : ℚ) :
    categoryOfScore (some q)
      = if 250 ≤ q then "excellent"
        else if 200 ≤ q then "very-good"
        else if 150 ≤ q then "good"
        else "average" := rfl

/-! ### The claims -/

/-- Claim C1: for every consolidated school record the category is assigned
from the 2024 total score by inclusive breakpoints: a present score of at
least 250 gives excellent, at least 200 (but below 250) very-good, at least
150 (but below 200) good, any other present score average, and an absent
score no-data; the boundary scores 250, 200 and 150 classify into the higher
tier. -/
theorem C1_category_breakpoints :
    (∀ (r : SchoolRecord) (q : ℚ), r.kokku2024 = some q → 250 ≤ q →
      category r = "excellent") ∧
    (∀ (r : SchoolRecord) (q : ℚ), r.kokku2024 = some q → 200 ≤ q → q < 250 →
      category r = "very-good") ∧
    (∀ (r : SchoolRecord) (q : ℚ), r.kokku2024 = some q → 150 ≤ q → q < 200 →
      category r = "good") ∧
    (∀ (r : SchoolRecord) (q : ℚ), r.kokku2024 = some q → q < 150 →
      category r = "average") ∧
    (∀ r : SchoolRecord, r.kokku2024 = none → category r = "no-data") ∧
    categoryOfScore (some 250) = "excellent" ∧
    categoryOfScore (some 200) = "very-good" ∧
    categoryOfScore (some 150) = "good" := by
  refine ⟨?_, ?_, ?_, ?_, ?_, by decide, by decide, by decide⟩
  · intro r q hr hq
    unfold category
    rw [hr, categoryOfScore_some, if_pos hq]
  · intro r q hr h1 h2
    unfold category
    rw [hr, categoryOfScore_some, if_neg (not_le.mpr h2), if_pos h1]
  · intro r q hr h1 h2
    unfold category
    rw [hr, categoryOfScore_some, if_neg (by linarith), if_neg (not_le.mpr h2), if_pos h1]
  · intro r q hr h1
    unfold category
    rw [hr, categoryOfScore_some, if_neg (by linarith), if_neg (by linarith),
      if_neg (not_le.mpr h1)]
  · intro r hr
    unfold category
    rw [hr]
    rfl

/-- Witness for C1: the specification's example scores 260, 210, 160, 100 land
in excellent, very-good, good, average, and an absent score in no-data. -/
theorem C1_category_breakpoints_witness :
    category (mkRec "a" (some 260)) = "excellent" ∧
    category (mkRec "b" (some 210)) = "very-good" ∧
    category (mkRec "c" (some 160)) = "good" ∧
    category (mkRec "d" (some 100)) = "average" ∧
    category demoAbsent = "no-data" :=
  ⟨C1_category_breakpoints.1 _ 260 rfl (by decide),
   C1_category_breakpoints.2.1 _ 210 rfl (by decide) (by decide),
   C1_category_breakpoints.2.2.1 _ 160 rfl (by decide) (by decide),
   C1_category_breakpoints.2.2.2.1 _ 100 rfl (by decide),
   C1_category_breakpoints.2.2.2.2.1 demoAbsent rfl⟩

/-- Counterexample to claim C2 as stated: a present score (or rank) of zero
is present, yet the code's truthiness guard suppresses the trend, so the
trend does not equal the difference of the two present values. -/
theorem C2_trend_zero_cex :
    trend_1yr (some 0) (some 100) ≠ some ((100 : ℚ) - 0) ∧
    place_change_1yr (some 0) (some 3) ≠ some ((0 : ℤ) - 3) := by
  constructor
  · simp [trend_1yr]
  · simp [place_change_1yr]

/-- Claim C2 as amended: the 1-year score trend equals 2024 minus 2023
exactly when both scores are present **and nonzero** (the Python truthiness
test `if a and b` treats a present zero like an absent value), and is absent
otherwise; likewise the 6-year trend with 2018 and 2024; the 1-year rank
trend equals the 2023 rank minus the 2024 rank exactly when both ranks are
present and nonzero, absent otherwise (likewise the 6-year rank trend); and
absence stays representable distinctly from zero. -/
theorem C2_trend_presence_amended :
    (∀ a b : ℚ, a ≠ 0 → b ≠ 0 → trend_1yr (some a) (some b) = some (b - a)) ∧
    (∀ k : Option ℚ, trend_1yr none k = none) ∧
    (∀ k : Option ℚ, trend_1yr k none = none) ∧
    (∀ k : Option ℚ, trend_1yr (some 0) k = none) ∧
    (∀ k : Option ℚ, trend_1yr k (some 0) = none) ∧
    (∀ a b : ℚ, a ≠ 0 → b ≠ 0 → trend_6yr (some a) (some b) = some (b - a)) ∧
    (∀ k : Option ℚ, trend_6yr none k = none) ∧
    (∀ k : Option ℚ, trend_6yr k none = none) ∧
    (∀ k : Option ℚ, trend_6yr (some 0) k = none) ∧
    (∀ k : Option ℚ, trend_6yr k (some 0) = none) ∧
    (∀ a b : ℤ, a ≠ 0 → b ≠ 0 → place_change_1yr (some a) (some b) = some (a - b)) ∧
    (∀ p : Option ℤ, place_change_1yr none p = none) ∧
    (∀ p : Option ℤ, place_change_1yr p none = none) ∧
    (∀ p : Option ℤ, place_change_1yr (some 0) p = none) ∧
    (∀ p : Option ℤ, place_change_1yr p (some 0) = none) ∧
    (∀ a b : ℤ, a ≠ 0 → b ≠ 0 → place_change_6yr (some a) (some b) = some (a - b)) ∧
    (some (0 : ℚ) ≠ (none : Option ℚ)) := by
  refine ⟨?_, ?_, ?_, ?_, ?_, ?_, ?_, ?_, ?_, ?_, ?_, ?_, ?_, ?_, ?_, ?_, by simp⟩
  · intro a b ha hb; simp [trend_1yr, ha, hb]
  · intro k; cases k <;> simp [trend_1yr]
  · intro k; cases k <;> simp [trend_1yr]
  · intro k; cases k <;> simp [trend_1yr]
  · intro k; cases k <;> simp [trend_1yr]
  · intro a b ha hb; simp [trend_6yr, ha, hb]
  · intro k; cases k <;> simp [trend_6yr]
  · intro k; cases k <;> simp [trend_6yr]
  · intro k; cases k <;> simp [trend_6yr]
  · intro k; cases k <;> simp [trend_6yr]
  · intro a b ha hb; simp [place_change_1yr, ha, hb]
  · intro p; cases p <;> simp [place_change_1yr]
  · intro p; cases p <;> simp [place_change_1yr]
  · intro p; cases p <;> simp [place_change_1yr]
  · intro p; cases p <;> simp [place_change_1yr]
  · intro a b ha hb; simp [place_change_6yr, ha, hb]

/-- Witness for the amended C2 at concrete nonzero inputs. -/
theorem C2_trend_presence_amended_witness :
    trend_1yr (some 200) (some 210) = some (210 - 200) ∧
    place_change_1yr (some 8) (some 3) = some (8 - 3) := by
  obtain ⟨h1, -, -, -, -, -, -, -, -, -, h11, -, -, -, -, -, -⟩ :=
    C2_trend_presence_amended
  exact ⟨h1 200 210 (by decide) (by decide), h11 8 3 (by decide) (by decide)⟩

/-- Claim C3: the trend category comes from the 1-year rank trend by strict
comparison against 5: strictly more than 5 gives improving, strictly less
than -5 declining, and everything else — including +5, -5 and an absent
trend (treated as 0) — gives stable. -/
theorem C3_trend_category_strict :
    (∀ n : ℤ, 5 < n → trend_cat (some n) = "improving") ∧
    (∀ n : ℤ, n < -5 → trend_cat (some n) = "declining") ∧
    (∀ n : ℤ, -5 ≤ n → n ≤ 5 → trend_cat (some n) = "stable") ∧
    trend_cat none = "stable" ∧
    trend_cat (some 5) = "stable" ∧
    trend_cat (some (-5)) = "stable" := by
  have horz : ∀ n : ℤ, orZero (some n) = n := by
    intro n
    show (if n ≠ 0 then n else 0) = n
    split
    · rfl
    · rename_i h
      rw [not_ne_iff] at h
      rw [h]
  refine ⟨?_, ?_, ?_, by decide, by decide, by decide⟩
  · intro n h
    unfold trend_cat
    rw [horz, if_pos h]
  · intro n h
    unfold trend_cat
    rw [horz, if_neg (by omega), if_pos h]
  · intro n h1 h2
    unfold trend_cat
    rw [horz, if_neg (by omega), if_neg (by omega)]

/-- Witness for C3 at concrete inputs on both sides of the thresholds. -/
theorem C3_trend_category_strict_witness :
    trend_cat (some 6) = "improving" ∧
    trend_cat (some (-6)) = "declining" ∧
    trend_cat (some 4) = "stable" :=
  ⟨C3_trend_category_strict.1 6 (by decide),
   C3_trend_category_strict.2.1 (-6) (by decide),
   C3_trend_category_strict.2.2.1 4 (by decide) (by decide)⟩

/-- Counterexample to claim C4 as stated: a record with the present (real)
2024 score 0 is keyed to the same sentinel -1 as an absent score, and the
stable sort leaves the absent record in front of it, so absent records are
not placed after every record with a real 2024 score. -/
theorem C4_sort_absent_cex :
    ¬ (∀ i j : Fin (sortSchools [demoAbsent, demoZero]).length,
        ((sortSchools [demoAbsent, demoZero]).get i).kokku2024 = none →
        ((sortSchools [demoAbsent, demoZero]).get j).kokku2024.isSome = true →
        (j : ℕ) < (i : ℕ)) := by decide

/-- Claim C4 as amended: the list is sorted descending by the key that sends
an absent — or present zero — 2024 score to the sentinel -1 and any other
present score to itself; the output is a permutation of the input; every
record whose 2024 score is present and positive is placed before every record
whose 2024 score is absent (the sentinel lies strictly below every positive
score); and a record with an absent 2024 score has category no-data. -/
theorem C4_sort_descending_amended (l : List SchoolRecord) :
    List.Sorted byKeyDesc (sortSchools l) ∧
    List.Perm (sortSchools l) l ∧
    (∀ i j : Fin (sortSchools l).length,
      ((sortSchools l).get i).kokku2024 = none →
      (∀ q : ℚ, ((sortSchools l).get j).kokku2024 = some q → 0 < q) →
      ((sortSchools l).get j).kokku2024.isSome = true →
      (j : ℕ) < (i : ℕ)) ∧
    (∀ r : SchoolRecord, r.kokku2024 = none → category r = "no-data") := by
  refine ⟨List.sorted_insertionSort byKeyDesc l, List.perm_insertionSort byKeyDesc l,
    ?_, ?_⟩
  · intro i j hnone hposc hsome
    obtain ⟨q, hq⟩ := Option.isSome_iff_exists.mp hsome
    have hqpos : 0 < q := hposc q hq
    rcases lt_trichotomy (i : ℕ) (j : ℕ) with h | h | h
    · exfalso
      have hsorted := List.sorted_insertionSort byKeyDesc l
      have hrel := (List.pairwise_iff_get.mp hsorted) i j h
      have hrel' : sortKey ((sortSchools l).get j).kokku2024
          ≤ sortKey ((sortSchools l).get i).kokku2024 := hrel
      rw [hnone, hq] at hrel'
      have h1 : sortKey none = (-1 : ℚ) := rfl
      have h2 : sortKey (some q) = q := by
        show (if q ≠ 0 then q else -1) = q
        rw [if_pos (ne_of_gt hqpos)]
      rw [h1, h2] at hrel'
      linarith
    · exfalso
      have : i = j := Fin.ext h
      rw [this, hq] at hnone
      exact Option.noConfusion hnone
    · exact h
  · intro r hr
    unfold category
    rw [hr]
    rfl

/-- Witness for the amended C4: sorting a two-record list puts the positive
score first and the absent score last, and the absent record is no-data. -/
theorem C4_sort_descending_amended_witness :
    List.Sorted byKeyDesc (sortSchools [demoAbsent, demoPos]) ∧
    (0 : ℕ) < 1 ∧
    category demoAbsent = "no-data" := by
  have h := C4_sort_descending_amended [demoAbsent, demoPos]
  refine ⟨h.1, ?_, h.2.2.2 demoAbsent rfl⟩
  exact h.2.2.1 ⟨1, by decide⟩ ⟨0, by decide⟩ (by decide)
    (fun q hq => by
      have h200 : ((sortSchools [demoAbsent, demoPos]).get ⟨0, by decide⟩).kokku2024
          = some (200 : ℚ) := by decide
      rw [h200] at hq
      cases hq
      decide)
    (by decide)

/-- Claim C5: the text normalizer `normalize` is idempotent, and it is
case-insensitive (it lowercases), so the two spellings of Tallinna Reaalkool
normalize to the same string.  The hypotheses are the facts about the Unicode
primitives that the code relies on: the output of a first normalization pass
is NFKC-normal, lowercasing a stripped string leaves it stripped, and
lowercasing is idempotent. -/
theorem C5_normalize_idempotent (U : UnicodeModel)
    (hn : ∀ t, U.nfkc (normalize U t) = normalize U t)
    (hs : ∀ t, stripList U.isSpace (U.lower (stripList U.isSpace t))
      = U.lower (stripList U.isSpace t))
    (hl : ∀ t, U.lower (U.lower t) = U.lower t) :
    (∀ s, normalize U (normalize U s) = normalize U s) ∧
    normalize estModel ("Tallinna Reaalkool".data)
      = normalize estModel ("TALLINNA REAALKOOL".data) := by
  constructor
  · intro s
    calc normalize U (normalize U s)
        = U.lower (stripList U.isSpace (U.nfkc (normalize U s))) := rfl
      _ = U.lower (stripList U.isSpace (normalize U s)) := by rw [hn]
      _ = U.lower (stripList U.isSpace (U.lower (stripList U.isSpace (U.nfkc s)))) := rfl
      _ = U.lower (U.lower (stripList U.isSpace (U.nfkc s))) := by rw [hs]
      _ = U.lower (stripList U.isSpace (U.nfkc s)) := hl _
  · decide

/-- Witness for C5: a concrete idempotence instance in the trivial model
(whose primitives satisfy the three Unicode hypotheses definitionally),
together with the concrete case-insensitivity instance. -/
theorem C5_normalize_idempotent_witness :
    normalize U0 (normalize U0 ("  Tallinna  Reaalkool ".data))
      = normalize U0 ("  Tallinna  Reaalkool ".data) ∧
    normalize estModel ("Tallinna Reaalkool".data)
      = normalize estModel ("TALLINNA REAALKOOL".data) := by
  have hs0 : ∀ t, stripList U0.isSpace (U0.lower (stripList U0.isSpace t))
      = U0.lower (stripList U0.isSpace t) := by
    intro t
    show stripList (fun _ => false) (stripList (fun _ => false) t)
      = stripList (fun _ => false) t
    have hdrop : ∀ cs : List Char, cs.dropWhile (fun _ => false) = cs := by
      intro cs
      cases cs <;> simp [List.dropWhile]
    simp [stripList, hdrop]
  have h := C5_normalize_idempotent U0 (fun t => rfl) hs0 (fun t => rfl)
  exact ⟨h.1 _, h.2⟩

/-- Claim C6: the school-name normalizer returns the empty string, without
raising, for the empty string and for every non-string input (`None`, `nan`,
ints, floats); totality of the Lean function is the no-error part. -/
theorem C6_normalizer_missing_input (U : UnicodeModel) (hnfc : U.nfc [] = []) :
    normalize_school_name U (PyVal.str "") = "" ∧
    (∀ v : PyVal, (∀ s, v ≠ PyVal.str s) → normalize_school_name U v = "") := by
  constructor
  · show String.mk (removeSoftHyphen (U.nfc (stripList U.isSpace "".data))) = ""
    have h1 : stripList U.isSpace "".data = [] := rfl
    rw [h1, hnfc]
    rfl
  · intro v hv
    cases v with
    | pyNone => rfl
    | nan => rfl
    | str s => exact absurd rfl (hv s)
    | int n => rfl
    | float q => rfl

/-- Witness for C6: concrete missing inputs in the concrete model. -/
theorem C6_normalizer_missing_input_witness :
    normalize_school_name estModel (PyVal.str "") = "" ∧
    normalize_school_name estModel PyVal.nan = "" ∧
    normalize_school_name estModel PyVal.pyNone = "" ∧
    normalize_school_name estModel (PyVal.float (7 : ℚ)) = "" := by
  have h := C6_normalizer_missing_input estModel rfl
  exact ⟨h.1,
    h.2 PyVal.nan (fun s hs => PyVal.noConfusion hs),
    h.2 PyVal.pyNone (fun s hs => PyVal.noConfusion hs),
    h.2 (PyVal.float 7) (fun s hs => PyVal.noConfusion hs)⟩

/-- Claim C7: in the full-table row rendering, when a school name matches
both a private-school marker and a highly-competitive marker, the
private-school branch (checked first) determines the row class, the label
suffix and the performance text. -/
theorem C7_private_priority (U : UnicodeModel) (r : SchoolRecord)
    (hp : is_private_school U r.name = true)
    (hc : is_competitive r.name = true) :
    rowRender U r = (" class=\"private-school\"", r.name ++ " 💼", "Private School") := by
  unfold rowRender
  rw [hp]
  rfl

/-- Witness for C7: a concrete name matching both a private marker and a
competitive marker renders through the private branch. -/
theorem C7_private_priority_witness :
    rowRender estModel (mkRec "Tallinna Reaalkool ja Rocca al Mare Kool" none)
      = (" class=\"private-school\"",
         "Tallinna Reaalkool ja Rocca al Mare Kool" ++ " 💼", "Private School") :=
  C7_private_priority estModel (mkRec "Tallinna Reaalkool ja Rocca al Mare Kool" none)
    (by decide) (by decide)

/-- Claim C10: every private-school marker is also a member of the
extra-Tallinn-schools exception set, so any name classified private is also
classified as a Tallinn school — no school can be private yet be excluded by
the city filter. -/
theorem C10_private_subset_tallinn (U : UnicodeModel) (s : String)
    (hp : is_private_school U s = true) : is_tallinn_school U s = true := by
  unfold is_private_school at hp
  by_cases hs : s = ""
  · rw [if_pos hs] at hp
    exact absurd hp (by decide)
  · rw [if_neg hs] at hp
    obtain ⟨p, hpmem, hsub⟩ := List.any_eq_true.mp hp
    have hmem2 : p ∈ EXTRA_TALLINN_SCHOOLS := by
      have hall : ∀ x ∈ PRIVATE_SCHOOLS, x ∈ EXTRA_TALLINN_SCHOOLS := by decide
      exact hall p hpmem
    unfold is_tallinn_school
    rw [if_neg hs]
    by_cases ht : substr ("tallinn".data) (normalize U s.data) = true
    · rw [if_pos ht]
    · rw [if_neg ht]
      exact List.any_eq_true.mpr ⟨p, hmem2, hsub⟩

/-- Witness for C10: a concrete private school passes the city filter. -/
theorem C10_private_subset_tallinn_witness :
    is_tallinn_school estModel "Rocca al Mare Kool" = true :=
  C10_private_subset_tallinn estModel "Rocca al Mare Kool" (by decide)

/-- Claim C8: the decimal parser accepts a comma as decimal separator
(demonstrated for every integer part and fractional digit), maps the em-dash
placeholder and empty or missing values to an absent result, and maps any
value on which the underlying float parse fails to an absent result instead
of raising (totality of the Lean function is the no-error part). -/
theorem C8_parse_decimal_robust :
    parse_decimal_comma PyVal.nan = none ∧
    parse_decimal_comma PyVal.pyNone = none ∧
    parse_decimal_comma (PyVal.str "") = none ∧
    parse_decimal_comma (PyVal.str "—") = none ∧
    (∀ n d : ℕ, d < 10 →
      parse_decimal_comma (PyVal.str (String.mk (natToChars n ++ ',' :: [digitChar d])))
        = some ((n : ℚ) + (d : ℚ) / 10)) ∧
    parse_decimal_comma (PyVal.str "N/A") = none ∧
    (∀ s : String, floatParse (commaToDot s.data) = none →
      parse_decimal_comma (PyVal.str s) = none) := by
  refine ⟨rfl, rfl, by decide, by decide, ?_, by decide, ?_⟩
  · intro n d hd
    have hmem : ',' ∈ (String.mk (natToChars n ++ ',' :: [digitChar d])).data :=
      List.mem_append_right _ (List.mem_cons_self _ _)
    have hne1 : String.mk (natToChars n ++ ',' :: [digitChar d]) ≠ "" := by
      intro hcon
      rw [hcon] at hmem
      exact absurd hmem (by decide)
    have hne2 : String.mk (natToChars n ++ ',' :: [digitChar d]) ≠ "—" := by
      intro hcon
      rw [hcon] at hmem
      exact absurd hmem (by decide)
    show (if String.mk (natToChars n ++ ',' :: [digitChar d]) = "" ∨
        String.mk (natToChars n ++ ',' :: [digitChar d]) = "—" then none
      else floatParse (commaToDot (String.mk (natToChars n ++ ',' :: [digitChar d])).data))
      = some ((n : ℚ) + (d : ℚ) / 10)
    rw [if_neg (by
      intro hcon
      rcases hcon with hcon | hcon
      · exact hne1 hcon
      · exact hne2 hcon)]
    have hcomma : commaToDot (',' :: [digitChar d]) = '.' :: [digitChar d] := by
      show [if ',' = ',' then '.' else ',',
          if digitChar d = ',' then '.' else digitChar d] = _
      rw [if_pos rfl, if_neg (isDigit_ne_comma (isDigit_digitChar hd))]
    show floatParse (commaToDot (natToChars n ++ ',' :: [digitChar d]))
      = some ((n : ℚ) + (d : ℚ) / 10)
    rw [commaToDot_append, commaToDot_of_allDigits (allDigits_natToChars n), hcomma,
      floatParse_pair n d hd]
  · intro s hs
    show (if s = "" ∨ s = "—" then none else floatParse (commaToDot s.data)) = none
    split
    · rfl
    · exact hs

/-- Witness for C8: a concrete comma-decimal parses to its value, and a
concrete unparseable field is absent. -/
theorem C8_parse_decimal_robust_witness :
    parse_decimal_comma (PyVal.str (String.mk (natToChars 123 ++ ',' :: [digitChar 4])))
      = some ((123 : ℚ) + (4 : ℚ) / 10) ∧
    parse_decimal_comma (PyVal.str "n/a") = none := by
  obtain ⟨-, -, -, -, hpair, -, hfail⟩ := C8_parse_decimal_robust
  exact ⟨hpair 123 4 (by decide), hfail "n/a" (by decide)⟩

/-- Claim C9: for every valid decimal-comma string (one whose parse
succeeds with value q), parsing, formatting and re-parsing yields exactly q
rounded to one decimal place; that rounded value is within 1/20 of q and is
an integer number of tenths; the rendering ends in a comma followed by a
single digit; and an absent score formats as the placeholder glyph. -/
theorem C9_format_roundtrip (s : String) (q : ℚ)
    (h : parse_decimal_comma (PyVal.str s) = some q) :
    parse_decimal_comma (PyVal.str (format_score (parse_decimal_comma (PyVal.str s))))
      = some (round1 q) ∧
    |round1 q - q| ≤ 1 / 20 ∧
    (∃ n : ℤ, round1 q = (n : ℚ) / 10) ∧
    (∃ (cs : List Char) (d : Char), (format_score (some q)).data = cs ++ [',', d] ∧
      d.isDigit = true) ∧
    format_score none = "—" := by
  refine ⟨?_, round1_close q, ⟨roundHalfEven (10 * q), rfl⟩, ?_, rfl⟩
  · rw [h]
    exact parse_format q
  · refine ⟨(if roundHalfEven (10 * q) < 0 then ['-'] else []) ++
      natToChars ((roundHalfEven (10 * q)).natAbs / 10),
      digitChar ((roundHalfEven (10 * q)).natAbs % 10), ?_,
      isDigit_digitChar (Nat.mod_lt _ (by norm_num))⟩
    rw [format_some_data]

/-- Witness for C9 at the concrete string 123,45: the round trip gives the
value rounded to one decimal. -/
theorem C9_format_roundtrip_witness :
    parse_decimal_comma (PyVal.str (format_score (parse_decimal_comma (PyVal.str "123,45"))))
      = some (round1 ((123 : ℚ) + 45 / 10 ^ 2)) ∧
    |round1 ((123 : ℚ) + 45 / 10 ^ 2) - ((123 : ℚ) + 45 / 10 ^ 2)| ≤ 1 / 20 ∧
    format_score none = "—" := by
  have hparse : parse_decimal_comma (PyVal.str "123,45")
      = some ((123 : ℚ) + 45 / 10 ^ 2) := rfl
  have h := C9_format_roundtrip "123,45" ((123 : ℚ) + 45 / 10 ^ 2) hparse
  exact ⟨h.1, h.2.1, h.2.2.2.2⟩

end Report
